import Mathlib

/-!
Verification of the connection-sniffing listener of `caddy-trojan`.

The development shallowly embeds the two source files of the repository:

* `utils/utils.go` — `RewindConn`, which restores already-consumed bytes onto a
  connection.  For a `*tls.Conn` it splices the internal `bytes.Reader` record
  buffer (`input`); for any other connection it wraps the connection in a
  replay decorator (`NewRawConn`, not present in this snapshot, modelled from
  the spec).
* `listener/listener.go` — the `Listener` (`Accept`, `Close`) and the
  per-connection sniffing goroutine inside `Listener.loop`.

Bytes are modelled as `Nat`, byte streams as `List Nat`.
-/

set_option autoImplicit false

namespace Trojan

/-- Modelled from the spec: `trojan.HeaderLen`, the fixed credential-header
length (hex SHA224 digest).  The `trojan` package is not part of this source
snapshot; the spec and the protocol diagram in `listener.go` both fix it
at 56. -/
def HeaderLen : Nat := 56

/-! ### `bytes.Reader` and the TLS splice branch of `RewindConn` -/

/-- A Go `bytes.Reader`: backing slice `s` and read cursor `i` (number of
bytes already consumed).  `Len()` is `s.length - i`, `Size()` is `s.length`. -/
structure BytesReader where
  s : List Nat
  i : Nat
deriving DecidableEq, Repr

/-- `bytes.Reader.Len()`: bytes still unread. -/
def BytesReader.len (r : BytesReader) : Nat := r.s.length - r.i

/-- `bytes.Reader.Size()`: total length of the backing slice. -/
def BytesReader.size (r : BytesReader) : Nat := r.s.length

/-- The bytes a `bytes.Reader` will still yield (from the cursor onward). -/
def BytesReader.readAll (r : BytesReader) : List Nat := r.s.drop r.i

/-- The `*tls.Conn` branch of `utils.RewindConn` (utils.go lines 24-40),
acting on the connection's internal `input : bytes.Reader`:

    remaining = input.Len(); size = input.Size(); buffered = len(read)
    if buffered <= size { input.Seek(0, 0) }
    else { buf := read ++ (bytes input will still yield); input.Reset(buf) }

`input.Read(buf[buffered:])` copies exactly the `remaining` unread bytes,
i.e. `s.drop i`; `Reset` installs the new slice with cursor 0. -/
def rewindTLS (input : BytesReader) (read : List Nat) : BytesReader :=
  if read.length ≤ input.size then
    { input with i := 0 }
  else
    { s := read ++ input.s.drop input.i, i := 0 }

/-! ### Connections -/

/-- A connection, as seen by the sniffer and by `RewindConn`.

* `tls input records` — a `*tls.Conn`: the current decrypted record buffer
  (`input : bytes.Reader`) plus the decrypted contents of the records still
  to arrive; a `Read` on an exhausted buffer refills it from the next record.
* `raw pending stream` — any other connection: `pending` is the replay
  buffer of an enclosing decorator (empty for an unwrapped connection),
  `stream` the bytes the underlying socket will still deliver. -/
inductive Conn where
  | tls (input : BytesReader) (records : List (List Nat))
  | raw (pending : List Nat) (stream : List Nat)
deriving DecidableEq, Repr

/-- Refilling a `*tls.Conn`'s record buffer: skip empty records, install the
first non-empty one and serve its first byte (cursor moves to 1). -/
def refillRead : List (List Nat) → Option (Nat × Conn)
  | [] => none
  | [] :: rs => refillRead rs
  | (b :: r) :: rs => some (b, Conn.tls ⟨b :: r, 1⟩ rs)

/-- Reading a single byte from a connection.  `none` is clean end-of-stream. -/
def Conn.readByte : Conn → Option (Nat × Conn)
  | .tls input records =>
    if h : input.i < input.s.length then
      some (input.s.get ⟨input.i, h⟩, .tls ⟨input.s, input.i + 1⟩ records)
    else
      refillRead records
  | .raw (b :: p) s => some (b, .raw p s)
  | .raw [] (b :: s) => some (b, .raw [] s)
  | .raw [] [] => none

/-- Reading exactly `n` bytes, one at a time (as the sniffer does). -/
def Conn.readN : Nat → Conn → Option (List Nat × Conn)
  | 0, c => some ([], c)
  | n + 1, c =>
    match c.readByte with
    | none => none
    | some (b, c₁) =>
      match Conn.readN n c₁ with
      | none => none
      | some (bs, c₂) => some (b :: bs, c₂)

/-- All bytes a connection will still yield, read to exhaustion. -/
def Conn.readToEnd : Conn → List Nat
  | .tls input records => input.s.drop input.i ++ records.flatten
  | .raw pending stream => pending ++ stream

/-- `utils.RewindConn` (utils.go lines 23-44): splice for `*tls.Conn`,
otherwise wrap in the replay decorator.

The decorator case is modelled from the spec: `NewRawConn` is not in this
source snapshot; per spec §4.3 it serves `read` from an in-memory cursor
first, then forwards to the underlying connection — i.e. it prepends `read`
to whatever the wrapped connection still yields. -/
def RewindConn : Conn → List Nat → Conn
  | .tls input records, read => .tls (rewindTLS input read) records
  | .raw pending stream, read => .raw (read ++ pending) stream

/-! ### The sniffing goroutine (listener.go lines 151-207) -/

/-- The outcome of one `c.Read(b[n:n+1])` call, as the goroutine inspects it:
`(nr, err)` with `nr ∈ {0, 1}`.

* `ok b` — `(1, nil)`: byte `b` stored at `b[n]`.
* `zero` — `(0, nil)`.
* `eofErr` — `err` satisfying `errors.Is(err, io.EOF)`.
* `otherErr w` — any other error; `w = some b` when the read also transferred
  a byte `b` into `b[n]`, `none` when it transferred nothing (then `b[n]`
  keeps its zero initial value from `make([]byte, HeaderLen+2)`). -/
inductive ReadEvent where
  | ok (b : Nat)
  | zero
  | eofErr
  | otherErr (w : Option Nat)
deriving DecidableEq, Repr

/-- How the byte-gathering loop (listener.go lines 159-185) ends.  `acc` is
the contents of the filled portion of `b`, `rest` the read outcomes the loop
never consumed. -/
inductive GatherResult where
  | full (acc : List Nat) (rest : List ReadEvent)
  | lfStop (acc : List Nat) (rest : List ReadEvent)
  | eofStop (rest : List ReadEvent)
  | failStop (acc : List Nat) (rest : List ReadEvent)
  | blocked
deriving DecidableEq, Repr

/-- The gathering loop `for n := 0; n < trojan.HeaderLen+2; n += 1` of
listener.go lines 159-185, with `acc` the filled portion `b[:n]` (so
`n = acc.length`):

* loop guard fails (`HeaderLen+2 ≤ n`): fall through to validation (`full`);
* `err != nil`, `io.EOF`: `eofStop`;
* `err != nil`, other: `failStop` with `b[:n+1]` (`b[n]` is the transferred
  byte if any, else still `0`);
* `nr == 0, err == nil`: `continue` — Go's `continue` runs the post
  statement `n += 1`, so position `n` is skipped and `b[n]` keeps its zero
  value;
* `b[n] == 0x0a && n < HeaderLen+1`: `lfStop` with `b[:n+1]`;
* otherwise next iteration.

`blocked`: the outcome list is exhausted, i.e. the goroutine would still be
blocked in `c.Read`. -/
def gather : List Nat → List ReadEvent → GatherResult
  | acc, [] => if HeaderLen + 2 ≤ acc.length then .full acc [] else .blocked
  | acc, e :: rest =>
    if HeaderLen + 2 ≤ acc.length then .full acc (e :: rest)
    else
      match e with
      | .ok b =>
        if b = 10 ∧ acc.length < HeaderLen + 1 then .lfStop (acc ++ [b]) rest
        else gather (acc ++ [b]) rest
      | .zero => gather (acc ++ [0]) rest
      | .eofErr => .eofStop rest
      | .otherErr w => .failStop (acc ++ [w.getD 0]) rest

/-- The externally visible effects of one run of the sniffing goroutine.

The goroutine returns nothing, so no error can propagate; `Proxy.Handle`'s
error only sets `loggedHandleErr` (listener.go lines 203-205). -/
structure SniffEffects where
  /-- `l.Proxy.Handle` was called on the connection. -/
  forwarded : Bool
  /-- `some p`: `utils.RewindConn(c, p)` was sent on the `l.conns` queue. -/
  queued : Option (List Nat)
  /-- `c.Close()` was called on a non-forwarding path. -/
  directClosed : Bool
  /-- the deferred `c.Close()` after `Proxy.Handle` ran. -/
  deferClosed : Bool
  /-- `Proxy.Handle` returned a non-nil error and it was logged. -/
  loggedHandleErr : Bool
deriving DecidableEq, Repr

/-- The whole sniffing goroutine (listener.go lines 151-207) as a function of
the listener's closed flag, the validator, whether `Proxy.Handle` errors, and
the connection's read outcomes.  Returns the effects and the unconsumed read
outcomes; `none` when the goroutine is still blocked reading. -/
def sniffTask (closed : Bool) (validate : List Nat → Bool) (handleErr : Bool)
    (events : List ReadEvent) : Option (SniffEffects × List ReadEvent) :=
  match gather [] events with
  | .blocked => none
  | .eofStop rest =>
    some (⟨false, none, true, false, false⟩, rest)
  | .failStop acc rest =>
    some (⟨false, some acc, false, false, false⟩, rest)
  | .lfStop acc rest =>
    if closed then some (⟨false, none, true, false, false⟩, rest)
    else some (⟨false, some acc, false, false, false⟩, rest)
  | .full acc rest =>
    if validate (acc.take HeaderLen) then
      some (⟨true, none, false, true, handleErr⟩, rest)
    else if closed then some (⟨false, none, true, false, false⟩, rest)
    else some (⟨false, some acc, false, false, false⟩, rest)

/-- How many of the three terminal fates (forwarded / queued / closed
directly) a goroutine run performed. -/
def fateCount (r : SniffEffects) : Nat :=
  (if r.forwarded then 1 else 0) + (if r.queued.isSome then 1 else 0) +
    (if r.directClosed then 1 else 0)

/-! ### `Listener.Accept` and `Listener.Close` (listener.go lines 117-135) -/

/-- The listener state the two methods touch: the one-shot `closed` channel
(as a flag) and the buffered `conns` delivery queue. -/
structure LState where
  closed : Bool
  conns : List Conn
deriving DecidableEq, Repr

/-- What `Accept` hands back: `os.ErrClosed` or a queued connection. -/
inductive AcceptResult where
  | closedErr
  | got (c : Conn)
deriving DecidableEq, Repr

/-- `Listener.Accept` (listener.go lines 117-124): a `select` over the two
channels.  When both are ready Go picks one uniformly at random; `pick`
resolves that choice (`true` = the `<-l.closed` case).  `none`: neither
channel is ready and the call blocks. -/
def accept (l : LState) (pick : Bool) : Option (AcceptResult × LState) :=
  match l.closed, l.conns with
  | true, [] => some (.closedErr, l)
  | true, c :: rest =>
    if pick then some (.closedErr, l)
    else some (.got c, { l with conns := rest })
  | false, c :: rest => some (.got c, { l with conns := rest })
  | false, [] => none

/-- `Listener.Close` (listener.go lines 127-135): if `closed` is already
closed do nothing, otherwise close it; return `nil` (`none`) either way. -/
def lclose (l : LState) : LState × Option Unit :=
  if l.closed then (l, none) else ({ l with closed := true }, none)

/-! ### Unfolding lemmas for the gathering loop -/

lemma gather_full (acc : List Nat) (evs : List ReadEvent)
    (h : HeaderLen + 2 ≤ acc.length) : gather acc evs = .full acc evs := by
  cases evs <;> simp only [gather] <;> rw [if_pos h]

lemma gather_cons_ok (acc : List Nat) (b : Nat) (rest : List ReadEvent)
    (h1 : acc.length < HeaderLen + 2)
    (h2 : ¬(b = 10 ∧ acc.length < HeaderLen + 1)) :
    gather acc (.ok b :: rest) = gather (acc ++ [b]) rest := by
  simp only [gather]
  rw [if_neg (by omega), if_neg h2]

lemma gather_cons_lf (acc : List Nat) (rest : List ReadEvent)
    (h : acc.length < HeaderLen + 1) :
    gather acc (.ok 10 :: rest) = .lfStop (acc ++ [10]) rest := by
  simp only [gather]
  rw [if_neg (by omega), if_pos ⟨trivial, h⟩]

lemma gather_cons_eof (acc : List Nat) (rest : List ReadEvent)
    (h : acc.length < HeaderLen + 2) :
    gather acc (.eofErr :: rest) = .eofStop rest := by
  simp only [gather]
  rw [if_neg (by omega)]

lemma gather_cons_err (acc : List Nat) (w : Option Nat) (rest : List ReadEvent)
    (h : acc.length < HeaderLen + 2) :
    gather acc (.otherErr w :: rest) = .failStop (acc ++ [w.getD 0]) rest := by
  simp only [gather]
  rw [if_neg (by omega)]

/-- A run of successful single-byte reads free of `0x0a` just accumulates. -/
lemma gather_map_ok (pre : List Nat) : ∀ (acc : List Nat) (evs : List ReadEvent),
    acc.length + pre.length ≤ HeaderLen + 2 → (∀ b ∈ pre, b ≠ 10) →
    gather acc (pre.map ReadEvent.ok ++ evs) = gather (acc ++ pre) evs := by
  induction pre with
  | nil => intro acc evs _ _; simp
  | cons b bs ih =>
    intro acc evs hlen hb
    have hb0 : b ≠ 10 := hb b (List.mem_cons_self b bs)
    have hlen' : acc.length + (bs.length + 1) ≤ HeaderLen + 2 := by
      simpa [List.length_cons] using hlen
    rw [List.map_cons, List.cons_append,
      gather_cons_ok acc b _ (by omega) (fun hc => hb0 hc.1),
      ih (acc ++ [b]) evs (by simp; omega)
        (fun x hx => hb x (List.mem_cons_of_mem b hx))]
    simp

/-- A header-length run of clean reads followed by two arbitrary delimiter
slots fills the buffer: the loop checks `0x0a` only at positions
`n < HeaderLen + 1`, so slot `HeaderLen` passes for any `x ≠ 10` and slot
`HeaderLen + 1` passes for any `y` whatsoever. -/
lemma gather_hdr_two (hdr : List Nat) (x y : Nat) (evs : List ReadEvent)
    (hlen : hdr.length = HeaderLen) (hno : ∀ b ∈ hdr, b ≠ 10) (hx : x ≠ 10) :
    gather [] ((hdr ++ [x, y]).map ReadEvent.ok ++ evs) =
      .full (hdr ++ [x, y]) evs := by
  have h1 : (List.map ReadEvent.ok [x, y]) ++ evs =
      .ok x :: .ok y :: evs := by simp
  rw [List.map_append, List.append_assoc, h1,
    gather_map_ok hdr [] _ (by simp [hlen]) hno, List.nil_append,
    gather_cons_ok hdr x _ (by omega) (fun hc => hx hc.1),
    gather_cons_ok (hdr ++ [x]) y _ (by simp [hlen])
      (fun hc => by have := hc.2; simp [hlen] at this),
    gather_full _ _ (by simp [hlen])]
  simp

/-! ## The claims -/

/-- C1 (counterexample): a fresh TLS connection whose decrypted stream
arrives as a 1-byte record `[7]` followed by a record `[8, 9, 10]`.  The
sniffer consumes the prefix `[7, 8, 9]` (three single-byte reads), leaving
the record buffer at `⟨[8, 9, 10], 2⟩`.  `RewindConn` then takes the
cursor-reset branch (`3 ≤ Size() = 3`), and reading the result to
exhaustion yields `[8, 9, 10]` — the byte `7` is lost and `8, 9` are
replayed from the wrong origin — instead of the claimed
`[7, 8, 9] ++ [10]`. -/
theorem C1_counterexample :
    Conn.readN 3 (.tls ⟨[], 0⟩ [[7], [8, 9, 10]]) =
      some ([7, 8, 9], .tls ⟨[8, 9, 10], 2⟩ [])
    ∧ Conn.readToEnd (RewindConn (.tls ⟨[8, 9, 10], 2⟩ []) [7, 8, 9]) =
      [8, 9, 10]
    ∧ Conn.readToEnd (RewindConn (.tls ⟨[8, 9, 10], 2⟩ []) [7, 8, 9]) ≠
      [7, 8, 9] ++ Conn.readToEnd (.tls ⟨[8, 9, 10], 2⟩ []) := by
  decide

/-- C1 (amended): `RewindConn` restores `read` followed by the remainder of
the stream for every plain (non-TLS) connection; for a TLS connection it
does so provided the prefix is longer than the record buffer's total size
(the reconstruction branch), or the already-read portion of the buffer is
exactly the prefix (cursor at `len(read)` and the buffer starts with
`read`) — the situation left behind when the whole prefix was served from
the current record with no earlier reader. -/
theorem C1_rewind_amended (c : Conn) (read : List Nat)
    (h : ∀ input records, c = Conn.tls input records →
      input.size < read.length ∨
        (input.i = read.length ∧ input.s.take read.length = read)) :
    Conn.readToEnd (RewindConn c read) = read ++ Conn.readToEnd c := by
  cases c with
  | raw p s => simp [RewindConn, Conn.readToEnd]
  | tls input records =>
    rcases h input records rfl with hgt | ⟨hi, hs⟩
    · simp only [RewindConn, Conn.readToEnd, rewindTLS, BytesReader.size] at *
      rw [if_neg (by omega)]
      simp
    · have h2 : read.length ≤ input.s.length := by
        have hl := congrArg List.length hs
        simp [List.length_take] at hl
        omega
      have hsplit : input.s = read ++ input.s.drop input.i := by
        conv_lhs => rw [← List.take_append_drop read.length input.s]
        rw [hs, hi]
      simp only [RewindConn, Conn.readToEnd, rewindTLS, BytesReader.size]
      rw [if_pos h2]
      simp only [List.drop_zero]
      conv_lhs => rw [hsplit]
      simp

/-- C1 (witness): the amended statement at a plain connection holding one
pending byte `5`, rewound with the one-byte prefix `[9]`. -/
theorem C1_witness :
    Conn.readToEnd (RewindConn (.raw [] [5]) [9]) =
      [9] ++ Conn.readToEnd (.raw [] [5]) :=
  C1_rewind_amended (.raw [] [5]) [9]
    (fun _ _ hc => Conn.noConfusion hc)

/-- C2 (counterexample): record buffer `⟨[8, 9, 10], 2⟩` (one byte still
unread) with prefix `[7, 8, 9]`.  `len(prefix) = 3` exceeds the unread
count `1`, yet the code resets the cursor (because `3 ≤ Size() = 3`)
instead of installing the reconstruction `[7, 8, 9, 10]` the claim
requires. -/
theorem C2_counterexample :
    rewindTLS ⟨[8, 9, 10], 2⟩ [7, 8, 9] = ⟨[8, 9, 10], 0⟩
    ∧ ¬ ([7, 8, 9].length ≤ BytesReader.len ⟨[8, 9, 10], 2⟩)
    ∧ rewindTLS ⟨[8, 9, 10], 2⟩ [7, 8, 9] ≠ ⟨[7, 8, 9, 10], 0⟩ := by
  decide

/-- C2 (amended): the buffer-aware splice resets the read cursor exactly
when `len(prefix)` is at most the buffer's **total size** (`Size()`,
counting already-consumed bytes) — not the count of bytes still unread;
otherwise it installs `prefix` followed by the unread remainder, cursor at
zero. -/
theorem C2_splice_amended (input : BytesReader) (read : List Nat) :
    (rewindTLS input read =
      if read.length ≤ input.size then ⟨input.s, 0⟩
      else ⟨read ++ input.s.drop input.i, 0⟩)
    ∧ (rewindTLS input read).readAll =
      if read.length ≤ input.size then input.s
      else read ++ input.s.drop input.i := by
  constructor
  · simp only [rewindTLS]
  · simp only [rewindTLS, BytesReader.readAll]
    split <;> simp

/-- C5 (the code at the failing input): the first read returns `(0, nil)`
and the 57 following reads return the stream's actual bytes (all `97`).
Because Go's `continue` executes the loop's post statement `n += 1`,
position 0 is skipped and keeps the zero value from
`make([]byte, HeaderLen+2)`: the loop completes a "full" 58-byte header of
which the first byte was never read from the stream, consuming only 57
stream bytes. -/
theorem C5_zero_read_skips_position :
    gather [] (ReadEvent.zero :: List.replicate 57 (ReadEvent.ok 97)) =
      .full (0 :: List.replicate 57 97) []
    ∧ (0 :: List.replicate 57 97).length = HeaderLen + 2
    ∧ (List.replicate 57 (ReadEvent.ok 97)).length = 57 := by
  decide

/-- C3: the concrete scenario.  The connection is a TLS connection whose
decrypted stream is one record holding 56 bytes `'a'`, CR, LF, then
`"PING"` (62 bytes).  For any validator rejecting the 56-`'a'` candidate:
the sniffer's 58 single-byte reads return exactly the first 58 bytes
(leaving the buffer cursor at 58), the goroutine consumes exactly 58 read
outcomes, calls the validator on the first 56 bytes only, and queues the
rewound connection; reading that rewound connection to exhaustion yields
the full 62-byte sequence, and `Accept()` on the open listener returns
it. -/
theorem C3_invalid_credential_scenario (v : List Nat → Bool)
    (hv : v (List.replicate 56 97) = false) :
    Conn.readN 58
        (.tls ⟨List.replicate 56 97 ++ [13, 10, 80, 73, 78, 71], 0⟩ []) =
      some (List.replicate 56 97 ++ [13, 10],
        .tls ⟨List.replicate 56 97 ++ [13, 10, 80, 73, 78, 71], 58⟩ [])
    ∧ sniffTask false v false
        ((List.replicate 56 97 ++ [13, 10, 80, 73, 78, 71]).map
          ReadEvent.ok) =
      some (⟨false, some (List.replicate 56 97 ++ [13, 10]), false, false,
        false⟩,
        [ReadEvent.ok 80, ReadEvent.ok 73, ReadEvent.ok 78, ReadEvent.ok 71])
    ∧ Conn.readToEnd (RewindConn
        (.tls ⟨List.replicate 56 97 ++ [13, 10, 80, 73, 78, 71], 58⟩ [])
        (List.replicate 56 97 ++ [13, 10])) =
      List.replicate 56 97 ++ [13, 10, 80, 73, 78, 71]
    ∧ accept ⟨false, [RewindConn
        (.tls ⟨List.replicate 56 97 ++ [13, 10, 80, 73, 78, 71], 58⟩ [])
        (List.replicate 56 97 ++ [13, 10])]⟩ true =
      some (.got (RewindConn
        (.tls ⟨List.replicate 56 97 ++ [13, 10, 80, 73, 78, 71], 58⟩ [])
        (List.replicate 56 97 ++ [13, 10])), ⟨false, []⟩) := by
  refine ⟨by decide, ?_, by decide, by decide⟩
  have hg : gather []
      ((List.replicate 56 97 ++ [13, 10, 80, 73, 78, 71]).map
        ReadEvent.ok) =
      .full (List.replicate 56 97 ++ [13, 10])
        [ReadEvent.ok 80, ReadEvent.ok 73, ReadEvent.ok 78,
          ReadEvent.ok 71] := by decide
  have ht : (List.replicate 56 97 ++ [13, 10]).take HeaderLen =
      List.replicate 56 97 := by decide
  simp only [sniffTask, hg, ht, hv]
  rfl

/-- C3 (witness): the scenario with the constantly-false validator. -/
theorem C3_witness :
    Conn.readN 58
        (.tls ⟨List.replicate 56 97 ++ [13, 10, 80, 73, 78, 71], 0⟩ []) =
      some (List.replicate 56 97 ++ [13, 10],
        .tls ⟨List.replicate 56 97 ++ [13, 10, 80, 73, 78, 71], 58⟩ [])
    ∧ sniffTask false (fun _ => false) false
        ((List.replicate 56 97 ++ [13, 10, 80, 73, 78, 71]).map
          ReadEvent.ok) =
      some (⟨false, some (List.replicate 56 97 ++ [13, 10]), false, false,
        false⟩,
        [ReadEvent.ok 80, ReadEvent.ok 73, ReadEvent.ok 78, ReadEvent.ok 71])
    ∧ Conn.readToEnd (RewindConn
        (.tls ⟨List.replicate 56 97 ++ [13, 10, 80, 73, 78, 71], 58⟩ [])
        (List.replicate 56 97 ++ [13, 10])) =
      List.replicate 56 97 ++ [13, 10, 80, 73, 78, 71]
    ∧ accept ⟨false, [RewindConn
        (.tls ⟨List.replicate 56 97 ++ [13, 10, 80, 73, 78, 71], 58⟩ [])
        (List.replicate 56 97 ++ [13, 10])]⟩ true =
      some (.got (RewindConn
        (.tls ⟨List.replicate 56 97 ++ [13, 10, 80, 73, 78, 71], 58⟩ [])
        (List.replicate 56 97 ++ [13, 10])), ⟨false, []⟩) :=
  C3_invalid_credential_scenario (fun _ => false) rfl

/-- C4: a connection presenting a `HeaderLen`-byte credential free of
`0x0a` that the validator accepts, followed by CR LF and then the payload.
The goroutine consumes exactly `HeaderLen + 2` read outcomes, performs no
rewind and no queue delivery (`queued = none`), calls `Proxy.Handle` with
the payload as the connection's next readable data (the unconsumed
outcomes are exactly `payload`), closes the connection afterwards via the
deferred `Close` whether or not `Handle` errs, and only logs a `Handle`
error — the goroutine has no way to return it. -/
theorem C4_valid_header_forwarded (closed : Bool) (v : List Nat → Bool)
    (herr : Bool) (hdr : List Nat) (payload : List ReadEvent)
    (hlen : hdr.length = HeaderLen) (hno : ∀ b ∈ hdr, b ≠ 10)
    (hv : v hdr = true) :
    sniffTask closed v herr ((hdr ++ [13, 10]).map ReadEvent.ok ++ payload) =
      some (⟨true, none, false, true, herr⟩, payload) := by
  have hg := gather_hdr_two hdr 13 10 payload hlen hno (by decide)
  have ht : (hdr ++ [13, 10]).take HeaderLen = hdr := by
    rw [← hlen]
    exact List.take_left hdr [13, 10]
  simp only [sniffTask, hg, ht, hv]
  rfl

/-- C4 (witness): header of 56 `'a'` bytes, matching validator, erring
forwarder, one payload byte. -/
theorem C4_witness :
    sniffTask false (fun h => h == List.replicate 56 97) true
      ((List.replicate 56 97 ++ [13, 10]).map ReadEvent.ok ++
        [ReadEvent.ok 80]) =
      some (⟨true, none, false, true, true⟩, [ReadEvent.ok 80]) :=
  C4_valid_header_forwarded false (fun h => h == List.replicate 56 97) true
    (List.replicate 56 97) [ReadEvent.ok 80] (by decide) (by decide)
    (by decide)

/-- C6 (counterexample): the listener has closed and the first read fails
with a non-EOF error.  The code (listener.go line 166) sends the rewound
connection on the queue unconditionally — `queued = some [0]`,
`directClosed = false` — whereas the claim requires a direct close in this
situation.  (The LF and validation-failure paths do consult the closed
flag; the read-error path does not.) -/
theorem C6_counterexample :
    sniffTask true (fun _ => false) false [ReadEvent.otherErr none] =
      some (⟨false, some [0], false, false, false⟩, [])
    ∧ sniffTask true (fun _ => false) false [ReadEvent.otherErr none] ≠
      some (⟨false, none, true, false, false⟩, []) := by
  decide

/-- C6 (amended): a clean end-of-stream during sniffing closes the
connection with no delivery; any other read error rewinds the `n + 1`
bytes read so far (the attempted slot holds the transferred byte if the
failing read transferred one, else its zero initial value) and delivers
the connection via the queue **unconditionally** — this path never
consults the closed flag, so there is no direct close even when the
listener has closed. -/
theorem C6_read_error_amended (closed : Bool) (v : List Nat → Bool)
    (herr : Bool) (pre : List Nat) (w : Option Nat) (rest : List ReadEvent)
    (hlen : pre.length < HeaderLen + 2) (hno : ∀ b ∈ pre, b ≠ 10) :
    sniffTask closed v herr (pre.map ReadEvent.ok ++ (.eofErr :: rest)) =
      some (⟨false, none, true, false, false⟩, rest)
    ∧ sniffTask closed v herr
        (pre.map ReadEvent.ok ++ (.otherErr w :: rest)) =
      some (⟨false, some (pre ++ [w.getD 0]), false, false, false⟩, rest) := by
  constructor
  · have hg : gather [] (pre.map ReadEvent.ok ++ (.eofErr :: rest)) =
        .eofStop rest := by
      rw [gather_map_ok pre [] _ (by simpa using Nat.le_of_lt hlen) hno,
        List.nil_append, gather_cons_eof pre rest hlen]
    simp only [sniffTask, hg]
  · have hg : gather [] (pre.map ReadEvent.ok ++ (.otherErr w :: rest)) =
        .failStop (pre ++ [w.getD 0]) rest := by
      rw [gather_map_ok pre [] _ (by simpa using Nat.le_of_lt hlen) hno,
        List.nil_append, gather_cons_err pre w rest hlen]
    simp only [sniffTask, hg]

/-- C6 (witness): empty prefix, closed listener: EOF closes directly, a
non-EOF error delivers `b[:1] = [0]`. -/
theorem C6_witness :
    sniffTask true (fun _ => false) false [ReadEvent.eofErr] =
      some (⟨false, none, true, false, false⟩, [])
    ∧ sniffTask true (fun _ => false) false
        ([ReadEvent.otherErr (some 3)]) =
      some (⟨false, some [3], false, false, false⟩, []) := by
  have h := C6_read_error_amended true (fun _ => false) false [] (some 3) []
    (by decide) (by decide)
  simpa using h

/-- C7: a line-feed at position `n < HeaderLen + 1` stops the sniffing:
the `n + 1` bytes read so far, the line feed included, are rewound and the
connection is delivered via the queue (closed directly instead when the
listener has closed), and not a single further read outcome is consumed
(`rest` is returned untouched). -/
theorem C7_early_linefeed (closed : Bool) (v : List Nat → Bool)
    (herr : Bool) (pre : List Nat) (rest : List ReadEvent)
    (hlen : pre.length < HeaderLen + 1) (hno : ∀ b ∈ pre, b ≠ 10) :
    sniffTask closed v herr (pre.map ReadEvent.ok ++ (.ok 10 :: rest)) =
      some (if closed then ⟨false, none, true, false, false⟩
        else ⟨false, some (pre ++ [10]), false, false, false⟩, rest) := by
  have hg : gather [] (pre.map ReadEvent.ok ++ (.ok 10 :: rest)) =
      .lfStop (pre ++ [10]) rest := by
    rw [gather_map_ok pre [] _ (by simp; omega) hno, List.nil_append,
      gather_cons_lf pre rest hlen]
  cases closed <;> simp only [sniffTask, hg] <;> rfl

/-- C7 (witness): open listener, the very first byte is the line feed;
`[10]` is rewound and delivered, the later outcome is untouched. -/
theorem C7_witness :
    sniffTask false (fun _ => false) false
      (ReadEvent.ok 10 :: [ReadEvent.ok 80]) =
      some (⟨false, some [10], false, false, false⟩, [ReadEvent.ok 80]) := by
  have h := C7_early_linefeed false (fun _ => false) false []
    [ReadEvent.ok 80] (by decide) (by decide)
  simpa using h

/-- C8: every completed run of the sniffing goroutine performs exactly one
terminal fate — forwarding to the proxy, queueing a rewound connection, or
closing the connection directly — never zero and never two.  (The deferred
close after forwarding is part of the forwarding fate, not a separate
one.) -/
theorem C8_exactly_one_fate (closed : Bool) (v : List Nat → Bool)
    (herr : Bool) (evs : List ReadEvent) (r : SniffEffects)
    (rest : List ReadEvent)
    (h : sniffTask closed v herr evs = some (r, rest)) : fateCount r = 1 := by
  cases hg : gather [] evs with
  | blocked => simp [sniffTask, hg] at h
  | eofStop rest' =>
    simp only [sniffTask, hg, Option.some.injEq, Prod.mk.injEq] at h
    rw [← h.1]
    rfl
  | failStop acc rest' =>
    simp only [sniffTask, hg, Option.some.injEq, Prod.mk.injEq] at h
    rw [← h.1]
    rfl
  | lfStop acc rest' =>
    simp only [sniffTask, hg] at h
    split at h <;>
      (simp only [Option.some.injEq, Prod.mk.injEq] at h; rw [← h.1]; rfl)
  | full acc rest' =>
    simp only [sniffTask, hg] at h
    split at h
    · simp only [Option.some.injEq, Prod.mk.injEq] at h
      rw [← h.1]
      rfl
    · split at h <;>
        (simp only [Option.some.injEq, Prod.mk.injEq] at h; rw [← h.1]; rfl)

/-- C8 (witness): the EOF-abandon run has exactly one fate (the direct
close). -/
theorem C8_witness : fateCount ⟨false, none, true, false, false⟩ = 1 :=
  C8_exactly_one_fate false (fun _ => false) false [ReadEvent.eofErr]
    ⟨false, none, true, false, false⟩ [] (by decide)

/-- C9 (counterexample): the listener has closed while one rewound
connection is still queued, and the `select` in `Accept` picks the queue
case (Go's `select` chooses uniformly among ready cases).  `Accept`
returns the queued connection, not the closed-resource error the claim
requires of every post-`Close` call. -/
theorem C9_counterexample :
    accept ⟨true, [Conn.raw [] []]⟩ false =
      some (.got (Conn.raw [] []), ⟨true, []⟩)
    ∧ AcceptResult.got (Conn.raw [] []) ≠ AcceptResult.closedErr := by
  decide

/-- C9 (amended): `Close()` always returns nil and is idempotent — the
first call sets the one-shot flag, later calls change nothing; after
`Close()`, `Accept()` returns the closed-resource error whenever the
delivery queue is empty, but while a connection is still queued the
`select` may return either that connection or the error. -/
theorem C9_close_accept_amended (l : LState) (pick : Bool) (c : Conn)
    (q : List Conn) :
    (lclose l).2 = none
    ∧ (lclose l).1.closed = true
    ∧ (lclose l).1.conns = l.conns
    ∧ lclose (lclose l).1 = ((lclose l).1, none)
    ∧ accept ⟨true, []⟩ pick = some (.closedErr, ⟨true, []⟩)
    ∧ accept ⟨true, c :: q⟩ true = some (.closedErr, ⟨true, c :: q⟩)
    ∧ accept ⟨true, c :: q⟩ false = some (.got c, ⟨true, q⟩) := by
  rcases l with ⟨cl, cs⟩
  cases cl <;> cases pick <;> simp [lclose, accept]

/-- C10: the two delimiter slots are never checked against CR LF.  Any
connection whose first `HeaderLen` bytes avoid `0x0a` and satisfy the
validator is forwarded, whatever byte sits at position `HeaderLen` (only
`0x0a` there triggers the early-fallback, since `HeaderLen < HeaderLen+1`)
and whatever byte — `0x0a` included — sits at position `HeaderLen + 1`;
no comparison with `0x0d` exists on any path. -/
theorem C10_delimiter_not_checked (closed : Bool) (v : List Nat → Bool)
    (herr : Bool) (hdr : List Nat) (b56 b57 : Nat) (rest : List ReadEvent)
    (hlen : hdr.length = HeaderLen) (hno : ∀ b ∈ hdr, b ≠ 10)
    (hb56 : b56 ≠ 10) (hv : v hdr = true) :
    sniffTask closed v herr ((hdr ++ [b56, b57]).map ReadEvent.ok ++ rest) =
      some (⟨true, none, false, true, herr⟩, rest) := by
  have hg := gather_hdr_two hdr b56 b57 rest hlen hno hb56
  have ht : (hdr ++ [b56, b57]).take HeaderLen = hdr := by
    rw [← hlen]
    exact List.take_left hdr [b56, b57]
  simp only [sniffTask, hg, ht, hv]
  rfl

/-- C10 (witness): delimiter slots `0x00` and `0x0a` instead of CR LF; the
connection is still forwarded. -/
theorem C10_witness :
    sniffTask false (fun h => h == List.replicate 56 97) false
      ((List.replicate 56 97 ++ [0, 10]).map ReadEvent.ok ++ []) =
      some (⟨true, none, false, true, false⟩, []) :=
  C10_delimiter_not_checked false (fun h => h == List.replicate 56 97) false
    (List.replicate 56 97) 0 10 [] (by decide) (by decide) (by decide)
    (by decide)

end Trojan
